import Mathlib

/-!
Verification development for svg2pdf.py: the affine-transform engine, the
length/transform/color parsers, the accumulated-transform resolver, and the
text-extraction pipeline.

Modelling conventions:
* Python floats are modelled as exact rationals (`ℚ`); the one operation that
  needs transcendental functions (`rotate_degrees`, which calls `math.sin` and
  `math.cos`) is modelled over `ℝ`.
* Regex matching (`RX_LENGTH`, `RX_TRANSFORM`) is modelled by hand-written
  character-level parsers that follow the regexes literally.
* Exceptions are modelled with `Except String` (the message text is not part
  of any property; only ok/error is).
* `lxml` element trees are modelled by `XmlTree`; an element's chain of
  ancestors (as produced by repeated `getparent()`) is modelled as the list of
  the attribute dictionaries from the element itself up to the root.
-/

set_option maxRecDepth 10000

/- The Batteries library marks the `Rat` arithmetic operations `@[irreducible]`,
which blocks `decide`-style evaluation of the concrete test cases below.
Restoring the default reducibility is proof-neutral. -/
set_option allowUnsafeReducibility true in
attribute [semireducible] Rat.mul Rat.add Rat.sub Rat.div Rat.neg Rat.inv Rat.normalize

/-- Python whitespace class `\s` (also what `str.strip` / `float` strip). -/
def isPySpace (c : Char) : Bool :=
  c = ' ' || c = '\t' || c = '\n' || c = '\r' || c = '\x0b' || c = '\x0c'

/-- Regex word character `\w` (ASCII). -/
def isPyWordChar (c : Char) : Bool :=
  c.isAlphanum || c = '_'

/-- Leading run of decimal digits, and the remainder. -/
def takeDigits : List Char → List Char × List Char
  | [] => ([], [])
  | c :: cs =>
    if c.isDigit then
      let (ds, rest) := takeDigits cs
      (c :: ds, rest)
    else ([], c :: cs)

/-- Numeric value of a digit string. -/
def digitsVal (ds : List Char) : Nat :=
  ds.foldl (fun n c => 10 * n + (c.toNat - '0'.toNat)) 0

/-- Value of a digit string read as a decimal fraction (digits after the point). -/
def fracVal (ds : List Char) : ℚ :=
  (digitsVal ds : ℚ) / (10 : ℚ) ^ ds.length

/-- Optional sign, as in `[+-]?`; returns the sign factor and the remainder. -/
def parseSignOpt : List Char → ℚ × List Char
  | '+' :: cs => (1, cs)
  | '-' :: cs => (-1, cs)
  | l => (1, l)

/-- Mantissa grammar of `RX_LENGTH` (and of Python float literals):
`(?: [0-9]+ \.? | \. [0-9] ) [0-9]*`. Returns the value and the remainder. -/
def parseMantissa (l : List Char) : Option (ℚ × List Char) :=
  match takeDigits l with
  | ([], _) =>
    match l with
    | '.' :: c :: cs =>
      if c.isDigit then
        let (ds, rest) := takeDigits cs
        some (fracVal (c :: ds), rest)
      else none
    | _ => none
  | (d :: ds, rest) =>
    match rest with
    | '.' :: cs =>
      let (ds2, rest2) := takeDigits cs
      some ((digitsVal (d :: ds) : ℚ) + fracVal ds2, rest2)
    | _ => some ((digitsVal (d :: ds) : ℚ), rest)

/-- Optional exponent `(?: e [+-]? [0-9]+ )?` (case-insensitive `e`).
Returns the exponent (0 when absent, consuming nothing, exactly as regex
backtracking does when the digits are missing) and the remainder. -/
def parseExpOpt (l : List Char) : ℤ × List Char :=
  match l with
  | c :: cs =>
    if c = 'e' ∨ c = 'E' then
      match cs with
      | s :: cs2 =>
        if s = '+' then
          match takeDigits cs2 with
          | ([], _) => (0, l)
          | (ds, rest) => ((digitsVal ds : ℤ), rest)
        else if s = '-' then
          match takeDigits cs2 with
          | ([], _) => (0, l)
          | (ds, rest) => (-(digitsVal ds : ℤ), rest)
        else
          match takeDigits cs with
          | ([], _) => (0, l)
          | (ds, rest) => ((digitsVal ds : ℤ), rest)
      | [] => (0, l)
    else (0, l)
  | [] => (0, [])

/-- Multiplication by a (possibly negative) power of ten. -/
def applyExp (q : ℚ) (e : ℤ) : ℚ :=
  match e with
  | Int.ofNat n => q * (10 : ℚ) ^ n
  | Int.negSucc n => q / (10 : ℚ) ^ (n + 1)

/-- Python `float(s)`: strips whitespace, then requires a full-string match of
`[+-]? mantissa exponent?`. (The `inf`/`nan`/underscore forms cannot occur in
the call sites modelled here, whose character set is `[0-9,\s\.Ee+-]`.) -/
def pyFloat (s : String) : Option ℚ :=
  let l := s.toList.dropWhile isPySpace
  let (sgn, l1) := parseSignOpt l
  match parseMantissa l1 with
  | none => none
  | some (mant, l2) =>
    let (e, l3) := parseExpOpt l2
    if l3.dropWhile isPySpace = [] then some (applyExp (sgn * mant) e) else none

/-! ## The affine transform engine (class AffineTransform) -/

/-- `AffineTransform`: translation `t = (tx, ty)` and linear part
`m = (m11, m21, m12, m22)`, in the tuple order used by the Python source. -/
structure AffineTransform (α : Type) where
  tx : α
  ty : α
  m11 : α
  m21 : α
  m12 : α
  m22 : α
deriving DecidableEq

namespace AffineTransform

/-- `AffineTransform()`: the identity transform. -/
def identity {α : Type} [CommRing α] : AffineTransform α :=
  { tx := 0, ty := 0, m11 := 1, m21 := 0, m12 := 0, m22 := 1 }

/-- `AffineTransform.matrix(a,b,c,d,e=0,f=0)`: right-compose the current
transform with the matrix `(a,b,c,d,e,f)` (source lines 76-87). -/
def matrix {α : Type} [CommRing α] (s : AffineTransform α) (a b c d : α)
    (e : α := 0) (f : α := 0) : AffineTransform α :=
  { m11 := s.m11 * a + s.m12 * b
    m21 := s.m21 * a + s.m22 * b
    m12 := s.m11 * c + s.m12 * d
    m22 := s.m21 * c + s.m22 * d
    tx := s.m11 * e + s.m12 * f + s.tx
    ty := s.m21 * e + s.m22 * f + s.ty }

/-- `AffineTransform.translate(tx,ty)`. -/
def translate {α : Type} [CommRing α] (s : AffineTransform α) (tx ty : α) :
    AffineTransform α :=
  s.matrix 1 0 0 1 tx ty

/-- `AffineTransform.scale(sx, sy=None)`; `sy = None` means uniform scale. -/
def scale {α : Type} [CommRing α] (s : AffineTransform α) (sx : α)
    (osy : Option α) : AffineTransform α :=
  let sy := osy.getD sx
  s.matrix sx 0 0 sy

/-- `AffineTransform.applyTo(x, y)` = `t + M·(x,y)` (source lines 89-94). -/
def applyTo {α : Type} [CommRing α] (s : AffineTransform α) (p : α × α) : α × α :=
  (s.tx + s.m11 * p.1 + s.m12 * p.2, s.ty + s.m21 * p.1 + s.m22 * p.2)

/-- `AffineTransform.__mul__` (source lines 99-112), transcribed entry by
entry: `cIJ = aI1*b1J + aI2*b2J + aI3*b3J`. -/
def mul {α : Type} [CommRing α] (a b : AffineTransform α) : AffineTransform α :=
  { m11 := a.m11 * b.m11 + a.m12 * b.m21
    m12 := a.m11 * b.m12 + a.m12 * b.m22
    tx := a.m11 * b.tx + a.m12 * b.ty + a.tx
    m21 := a.m21 * b.m11 + a.m22 * b.m21
    m22 := a.m21 * b.m12 + a.m22 * b.m22
    ty := a.m21 * b.tx + a.m22 * b.ty + a.ty }

instance {α : Type} [CommRing α] : Mul (AffineTransform α) := ⟨mul⟩

/-- `math.radians`. -/
noncomputable def radians (x : ℝ) : ℝ := x * Real.pi / 180

section
open Classical

/-- `AffineTransform.rotate_degrees(angle, cx=0, cy=0)` (source lines 61-69):
with a non-origin pivot, `translate(cx,cy)`, then the rotation matrix, then
`translate(-cx,-cy)` are right-composed in that order; otherwise just the
rotation matrix. (`sin`/`cos` of `math.radians(angle)` are written inline
where Python binds them to locals first.) -/
noncomputable def rotate_degrees (s : AffineTransform ℝ) (angle : ℝ)
    (cx cy : ℝ) : AffineTransform ℝ :=
  if cx ≠ 0 ∨ cy ≠ 0 then
    ((s.translate cx cy).matrix (Real.cos (radians angle)) (Real.sin (radians angle))
      (-Real.sin (radians angle)) (Real.cos (radians angle)) 0 0).translate (-cx) (-cy)
  else
    s.matrix (Real.cos (radians angle)) (Real.sin (radians angle))
      (-Real.sin (radians angle)) (Real.cos (radians angle)) 0 0

end

end AffineTransform

deriving instance DecidableEq for Except

/-! ## The unit table and the length parser -/

def INKSCAPE_DPI : ℚ := 90

/-- `UNIT_SCALE_TO_USER_UNITS` (source lines 21-29), as an association list. -/
def UNIT_SCALE_TO_USER_UNITS : List (String × ℚ) :=
  [("", 1), ("px", 1), ("in", INKSCAPE_DPI),
   ("cm", INKSCAPE_DPI / (254 / 100)),
   ("mm", INKSCAPE_DPI / (254 / 10)),
   ("pt", INKSCAPE_DPI / 72),
   ("pc", INKSCAPE_DPI * 12 / 72)]

/-- The unit alternation of `RX_LENGTH`: `em|ex | px|in|cm|mm|pt|pc | [%]`,
matched case-insensitively; returns the matched text as written. -/
def matchUnit : List Char → Option (String × List Char)
  | c1 :: c2 :: rest =>
    if [c1.toLower, c2.toLower] ∈
        [['e', 'm'], ['e', 'x'], ['p', 'x'], ['i', 'n'], ['c', 'm'],
         ['m', 'm'], ['p', 't'], ['p', 'c']] then
      some (String.mk [c1, c2], rest)
    else if c1 = '%' then some ("%", c2 :: rest)
    else none
  | [c1] => if c1 = '%' then some ("%", []) else none
  | [] => none

/-- `RX_LENGTH.match(text)` (source lines 178-186): anchored at the start,
trailing content ignored; yields the numeric value of the `value` group and
the `unit` group (as matched, original case). -/
def rxLengthMatch (text : String) : Option (ℚ × Option String) :=
  let l := text.toList.dropWhile isPySpace
  let (sgn, l1) := parseSignOpt l
  match parseMantissa l1 with
  | none => none
  | some (mant, l2) =>
    let (e, l3) := parseExpOpt l2
    let value := applyExp (sgn * mant) e
    match matchUnit l3 with
    | some (u, _) => some (value, some u)
    | none => some (value, none)

/-- `svg_parse_length(text)` with `apply_unit=True` (source lines 187-197).
Mirrors line 193 exactly: with a unit present it returns
`UNIT_SCALE_TO_USER_UNITS[unit]` — the bare scale factor (a `KeyError`,
modelled as an error, for the units the table lacks) — and only without a
unit does it return `raw_value`. -/
def svg_parse_length (text : String) : Except String ℚ :=
  match rxLengthMatch text with
  | some (raw_value, unit) =>
    match unit with
    | some u =>
      match UNIT_SCALE_TO_USER_UNITS.lookup u with
      | some s => Except.ok s
      | none => Except.error ("KeyError: " ++ u)
    | none => Except.ok raw_value
  | none => Except.error ("invalid length " ++ text)

/-! ## The transform-attribute parser (svg_parse_transform) -/

/-- The argument-character class of `RX_TRANSFORM`: `[0-9,\s\.Ee+-]`. -/
def transformArgChar (c : Char) : Bool :=
  c.isDigit || c = ',' || isPySpace c || c = '.' || c = 'E' || c = 'e' ||
    c = '+' || c = '-'

/-- `RX_TRANSFORM.match(attribute)` for `^\s*(\w+)\(([0-9,\s\.Ee+-]*)\)\s*$`
(source line 123): anchored at both ends; yields the function name
(group 1) and the raw argument text (group 2). -/
def rxTransformMatch (attrText : String) : Option (String × String) :=
  let l := attrText.toList.dropWhile isPySpace
  let (w, rest) := l.span isPyWordChar
  if w = [] then none
  else
    match rest with
    | '(' :: rest2 =>
      let (argcs, rest3) := rest2.span transformArgChar
      match rest3 with
      | ')' :: rest4 =>
        if rest4.dropWhile isPySpace = [] then some (String.mk w, String.mk argcs)
        else none
      | _ => none
    | _ => none

/-- Whitespace split, accumulating the current word in reverse. -/
def splitWsAux : List Char → List Char → List (List Char)
  | [], cur => if cur = [] then [] else [cur.reverse]
  | c :: cs, cur =>
    if isPySpace c then
      if cur = [] then splitWsAux cs [] else cur.reverse :: splitWsAux cs []
    else splitWsAux cs (c :: cur)

/-- `s.replace(',', ' ').split()` as used on the argument text (source
line 130). -/
def splitArgs (s : String) : List String :=
  (splitWsAux (s.toList.map fun c => if c = ',' then ' ' else c) []).map String.mk

/-- `svg_parse_transform(attribute)` (source lines 125-150). A regex
mismatch, a `float` conversion failure, a wrong argument count, and an
unrecognized function name all raise, modelled as `Except.error`. -/
def svg_parse_transform (attrText : String) : Except String (AffineTransform ℚ) :=
  match rxTransformMatch attrText with
  | none => Except.error ("bad transform (" ++ attrText ++ ")")
  | some (func, argtext) =>
    match (splitArgs argtext).mapM pyFloat with
    | none => Except.error "could not convert string to float"
    | some args =>
      if func = "matrix" then
        if args.length ≠ 6 then Except.error "bad matrix transform"
        else Except.ok (AffineTransform.identity.matrix (args.getD 0 0) (args.getD 1 0)
          (args.getD 2 0) (args.getD 3 0) (args.getD 4 0) (args.getD 5 0))
      else if func = "translate" then
        if args.length < 1 ∨ args.length > 2 then Except.error "bad translate transform"
        else
          Except.ok (AffineTransform.identity.translate (args.getD 0 0)
            (if args.length > 1 then args.getD 1 0 else 0))
      else if func = "scale" then
        if args.length < 1 ∨ args.length > 2 then Except.error "bad scale transform"
        else
          Except.ok (AffineTransform.identity.scale (args.getD 0 0)
            (some (if args.length > 1 then args.getD 1 0 else args.getD 0 0)))
      else Except.error ("unsupported transform attribute (" ++ attrText ++ ")")

/-! ## The color parser (svg_parse_color) -/

/-- Hexadecimal digit value. -/
def hexVal (c : Char) : Option Nat :=
  if c.isDigit then some (c.toNat - '0'.toNat)
  else if 'a' ≤ c ∧ c ≤ 'f' then some (c.toNat - 'a'.toNat + 10)
  else if 'A' ≤ c ∧ c ≤ 'F' then some (c.toNat - 'A'.toNat + 10)
  else none

/-- Python `int(s, 16)` for the short slices used by `svg_parse_color`:
optional surrounding whitespace, an optional sign, then one or more hex
digits. (The `0x` prefix and digit-group underscores of the full grammar
cannot fit in the two-character slices taken here.) -/
def pyIntHex (s : String) : Option ℤ :=
  let l := ((s.toList.dropWhile isPySpace).reverse.dropWhile isPySpace).reverse
  let (sgn, l1) : ℤ × List Char :=
    match l with
    | '+' :: cs => (1, cs)
    | '-' :: cs => (-1, cs)
    | _ => (1, l)
  if l1 = [] then none
  else if l1.all fun c => (hexVal c).isSome then
    some (sgn * (l1.foldl (fun n c => 16 * n + ((hexVal c).getD 0)) 0 : ℕ))
  else none

/-- `svg_parse_color(col)` (source lines 160-167): `col[0]` must be `#`
(an empty string raises `IndexError`), then the slices `col[1:3]`,
`col[3:5]`, `col[5:7]` are parsed with `int(_, 16)`; characters past index 7
are never examined. -/
def svg_parse_color (col : String) : Except String (ℤ × ℤ × ℤ) :=
  match col.toList with
  | [] => Except.error "IndexError: string index out of range"
  | c :: _ =>
    if c = '#' then
      let slice := fun (a b : Nat) => String.mk ((col.toList.drop a).take (b - a))
      match pyIntHex (slice 1 3), pyIntHex (slice 3 5), pyIntHex (slice 5 7) with
      | some r, some g, some b => Except.ok (r, g, b)
      | _, _, _ => Except.error "invalid literal for int with base 16"
    else Except.error "only hash-code colors are supported!"

/-! ## The accumulated-transform resolver (svg_find_accumulated_transform)

An element together with the `getparent()` chain above it is modelled as the
list of attribute dictionaries `[el.attrib, parent.attrib, …, root.attrib]`.
-/

/-- One attribute dictionary (lxml `el.attrib`). -/
abbrev Attrib := List (String × String)

/-- The `while` loop of `svg_find_accumulated_transform` (source lines
171-175), with the running accumulator `xform`: at every element that has a
`transform` attribute, `xform = t * xform`. -/
def svg_find_accumulated_transform_loop (xform : AffineTransform ℚ) :
    List Attrib → Except String (AffineTransform ℚ)
  | [] => Except.ok xform
  | a :: rest =>
    match a.lookup "transform" with
    | none => svg_find_accumulated_transform_loop xform rest
    | some tstr =>
      match svg_parse_transform tstr with
      | Except.error e => Except.error e
      | Except.ok t => svg_find_accumulated_transform_loop (t * xform) rest

/-- `svg_find_accumulated_transform(el)` (source lines 169-176), on the
attribute-dictionary chain from the element itself up to the root. -/
def svg_find_accumulated_transform (chain : List Attrib) :
    Except String (AffineTransform ℚ) :=
  svg_find_accumulated_transform_loop AffineTransform.identity chain

/-- State-passing translation of the same loop: the walk only ever reads
`el.attrib` (`'transform' in el.attrib`, `el.attrib['transform']`) and
rebinds its local variables, so each visited dictionary is returned as the
walk saw it. The second component is the chain after execution. -/
def svg_find_accumulated_transform_loop_st (xform : AffineTransform ℚ) :
    List Attrib → Except String (AffineTransform ℚ) × List Attrib
  | [] => (Except.ok xform, [])
  | a :: rest =>
    match a.lookup "transform" with
    | none =>
      let (r, rest2) := svg_find_accumulated_transform_loop_st xform rest
      (r, a :: rest2)
    | some tstr =>
      match svg_parse_transform tstr with
      | Except.error e => (Except.error e, a :: rest)
      | Except.ok t =>
        let (r, rest2) := svg_find_accumulated_transform_loop_st (t * xform) rest
        (r, a :: rest2)

/-- State-passing translation of `svg_find_accumulated_transform`. -/
def svg_find_accumulated_transform_st (chain : List Attrib) :
    Except String (AffineTransform ℚ) × List Attrib :=
  svg_find_accumulated_transform_loop_st AffineTransform.identity chain

/-- State-passing translation of `AffineTransform.__mul__` (source lines
99-112): the method unpacks `a.m`, `a.t`, `b.m`, `b.t` into locals and
builds a fresh `AffineTransform` from them; it assigns no field of either
operand. The translation returns the result together with the two operand
objects as the method leaves them, each rebuilt from the locals it read. -/
def AffineTransform.mul_st (a b : AffineTransform ℚ) :
    AffineTransform ℚ × AffineTransform ℚ × AffineTransform ℚ :=
  let a11 := a.m11; let a21 := a.m21; let a12 := a.m12; let a22 := a.m22
  let a13 := a.tx; let a23 := a.ty
  let b11 := b.m11; let b21 := b.m21; let b12 := b.m12; let b22 := b.m22
  let b13 := b.tx; let b23 := b.ty
  let c11 := a11 * b11 + a12 * b21
  let c12 := a11 * b12 + a12 * b22
  let c13 := a11 * b13 + a12 * b23 + a13
  let c21 := a21 * b11 + a22 * b21
  let c22 := a21 * b12 + a22 * b22
  let c23 := a21 * b13 + a22 * b23 + a23
  (⟨c13, c23, c11, c21, c12, c22⟩,
   ⟨a13, a23, a11, a21, a12, a22⟩,
   ⟨b13, b23, b11, b21, b12, b22⟩)

/-! ## Escaped-string decoding (decode_escaped_string) -/

/-- Octal digit? -/
def isOctal (c : Char) : Bool := '0' ≤ c && c ≤ '7'

/-- `codecs.escape_decode(text)[0].decode(encoding)` (source lines 260-261),
i.e. CPython's escape decoding: `\\`, `\'`, `\"`, `\a`, `\b`, `\f`, `\n`,
`\r`, `\t`, `\v`, a line continuation `\<newline>`, one-to-three-digit octal
escapes, and `\xHH`; an unknown escape keeps both characters; a trailing
backslash or a malformed `\x` raises `ValueError`. Modelled at character
level (byte-identical on the ASCII payloads at issue). -/
def escape_decode : List Char → Option (List Char)
  | [] => some []
  | '\\' :: rest =>
    match rest with
    | [] => none
    | '\n' :: cs => escape_decode cs
    | '\\' :: cs => (escape_decode cs).map (fun l => '\\' :: l)
    | '\'' :: cs => (escape_decode cs).map (fun l => '\'' :: l)
    | '\"' :: cs => (escape_decode cs).map (fun l => '\"' :: l)
    | 'a' :: cs => (escape_decode cs).map (fun l => '\x07' :: l)
    | 'b' :: cs => (escape_decode cs).map (fun l => '\x08' :: l)
    | 'f' :: cs => (escape_decode cs).map (fun l => '\x0c' :: l)
    | 'n' :: cs => (escape_decode cs).map (fun l => '\n' :: l)
    | 'r' :: cs => (escape_decode cs).map (fun l => '\r' :: l)
    | 't' :: cs => (escape_decode cs).map (fun l => '\t' :: l)
    | 'v' :: cs => (escape_decode cs).map (fun l => '\x0b' :: l)
    | 'x' :: c1 :: c2 :: cs =>
      match hexVal c1, hexVal c2 with
      | some h1, some h2 => (escape_decode cs).map (fun l => Char.ofNat (16 * h1 + h2) :: l)
      | _, _ => none
    | 'x' :: _ => none
    | c :: cs =>
      if isOctal c then
        match cs with
        | c2 :: c3 :: cs2 =>
          if isOctal c2 && isOctal c3 then
            (escape_decode cs2).map (fun l =>
              Char.ofNat (64 * (c.toNat - 48) + 8 * (c2.toNat - 48) + (c3.toNat - 48)) :: l)
          else if isOctal c2 then
            (escape_decode (c3 :: cs2)).map (fun l =>
              Char.ofNat (8 * (c.toNat - 48) + (c2.toNat - 48)) :: l)
          else
            (escape_decode (c2 :: c3 :: cs2)).map (fun l => Char.ofNat (c.toNat - 48) :: l)
        | [c2] =>
          if isOctal c2 then
            some [Char.ofNat (8 * (c.toNat - 48) + (c2.toNat - 48))]
          else
            (escape_decode [c2]).map (fun l => Char.ofNat (c.toNat - 48) :: l)
        | [] => some [Char.ofNat (c.toNat - 48)]
      else
        (escape_decode cs).map (fun l => '\\' :: c :: l)
  | c :: cs => (escape_decode cs).map (fun l => c :: l)

/-- `decode_escaped_string(text)` (source lines 260-261). -/
def decode_escaped_string (text : String) : Except String String :=
  match escape_decode text.toList with
  | some l => Except.ok (String.mk l)
  | none => Except.error "ValueError: invalid escape"

/-! ## The document tree and the extraction pipeline (extract_text_to_texpic) -/

/-- `SVG_NSS` (source lines 32-41). -/
def SVG_NSS : List (String × String) :=
  [("dc", "http://purl.org/dc/elements/1.1/"),
   ("cc", "http://creativecommons.org/ns#"),
   ("rdf", "http://www.w3.org/1999/02/22-rdf-syntax-ns#"),
   ("svg", "http://www.w3.org/2000/svg"),
   ("textext", "http://www.iki.fi/pav/software/textext/"),
   ("xlink", "http://www.w3.org/1999/xlink"),
   ("sodipodi", "http://sodipodi.sourceforge.net/DTD/sodipodi-0.dtd"),
   ("inkscape", "http://www.inkscape.org/namespaces/inkscape")]

/-- `str.partition(':')`: the text before the first `:` and the text after
it (empty when there is no `:`). -/
def partitionColon (s : String) : String × String :=
  let (a, b) := s.toList.span (fun c => c ≠ ':')
  match b with
  | _ :: rest => (String.mk a, String.mk rest)
  | [] => (String.mk a, "")

/-- `ns_attrib(attrib)` (source lines 43-45): expands `ns:name` to
`\x7buri\x7dname`. Every use in the pipeline passes a prefix present in
`SVG_NSS`, so the `KeyError` branch is unreachable and elided. -/
def ns_attrib (s : String) : String :=
  let (ns, name) := partitionColon s
  "\x7b" ++ ((SVG_NSS.lookup ns).getD "") ++ "\x7d" ++ name

/-- The expanded lxml tag name matched by the xpath query `//svg:text`. -/
def SVG_TEXT_TAG : String := "\x7bhttp://www.w3.org/2000/svg\x7dtext"

/-- The expanded attribute name `textext:text` tested by `//*[@textext:text]`. -/
def TT_TEXT : String := ns_attrib "textext:text"

/-- The expanded attribute name `textext:preamble`. -/
def TT_PREAMBLE : String := ns_attrib "textext:preamble"

mutual

/-- An lxml element: tag (in expanded `\x7buri\x7dname` form), attribute
dictionary, children in document order. -/
inductive XmlTree where
  | elem (tag : String) (attrib : Attrib) (children : XmlForest)
deriving DecidableEq

/-- A sibling list of elements, in document order. -/
inductive XmlForest where
  | nil
  | cons (t : XmlTree) (ts : XmlForest)
deriving DecidableEq

end

/-- The element's tag. -/
def XmlTree.tag : XmlTree → String
  | .elem t _ _ => t

/-- The element's attribute dictionary. -/
def XmlTree.attrib : XmlTree → Attrib
  | .elem _ a _ => a

/-- The element's children. -/
def XmlTree.children : XmlTree → XmlForest
  | .elem _ _ c => c

/-- `class TeXPictureElement` (source lines 243-250) together with the
`xform` / `svg_pos` fields the pipeline adds dynamically. -/
structure TeXPictureElement where
  tex_pos : ℚ × ℚ := (0, 0)
  texcode : String := ""
  xform : AffineTransform ℚ := AffineTransform.identity
  svg_pos : ℚ × ℚ := (0, 0)
deriving DecidableEq

/-- `class TeXPicture` (source lines 223-228). -/
structure TeXPicture where
  width : ℚ := 0
  height : ℚ := 0
  nodes : List TeXPictureElement := []
  extra_preamble : String := ""
deriving DecidableEq

/-- The body of the `//svg:text` loop (source lines 275-286) up to the
`remove` call: resolve the accumulated transform, parse the `x`/`y` anchor
(default `'0'`), project it, flip Y against the picture height. The node is
built but never appended (markup generation is stubbed out). -/
def svg_text_node (height : ℚ) (selfAndAncestors : List Attrib) (a : Attrib) :
    Except String TeXPictureElement := do
  let xform ← svg_find_accumulated_transform selfAndAncestors
  let x ← svg_parse_length ((a.lookup "x").getD "0")
  let y ← svg_parse_length ((a.lookup "y").getD "0")
  let p := xform.applyTo (x, y)
  Except.ok { xform := xform, svg_pos := (x, y), tex_pos := (p.1, height - p.2),
              texcode := "" }

/-- The fixed wrapper put around a decoded textext payload (source lines
296-299). -/
def TEXTEXT_WRAP_HEAD : String :=
  "\\makebox(0,0)[lt]\x7b\\begin\x7bvarwidth\x7d\x7b20in\x7d%\n"

def TEXTEXT_WRAP_TAIL : String := "%\n\\relax\\end\x7bvarwidth\x7d\x7d"

/-- The body of the `//*[@textext:text]` loop (source lines 291-305) up to
the `remove` call: decode the payload and the preamble reference, build the
wrapped markup, resolve the accumulated transform, and position the node at
the transform's translation component with Y flipped. Returns the node and
the preamble-source path. A missing `textext:preamble` attribute raises
(`KeyError`). -/
def textext_node (height : ℚ) (selfAndAncestors : List Attrib) (a : Attrib) :
    Except String (TeXPictureElement × String) := do
  let textext ← decode_escaped_string ((a.lookup TT_TEXT).getD "")
  let preamble_src ←
    match a.lookup TT_PREAMBLE with
    | some p => decode_escaped_string p
    | none => Except.error "KeyError: textext preamble attribute"
  let texcode := TEXTEXT_WRAP_HEAD ++ textext ++ TEXTEXT_WRAP_TAIL
  let xform ← svg_find_accumulated_transform selfAndAncestors
  Except.ok ({ texcode := texcode, xform := xform, svg_pos := (0, 0),
               tex_pos := (xform.tx, height - xform.ty) }, preamble_src)

mutual

/-- The `//svg:text` pass over one subtree, in document order. `ancestors`
is the attribute chain from the parent up to the root as `getparent()`
would deliver it at this moment. A matched element has its position
computed and is then removed (result `none`); since removal detaches its
whole subtree, matched descendants are processed with a chain that ends at
the detached element, exactly as lxml's `getparent()` walk then does. -/
def phaseA (height : ℚ) (ancestors : List Attrib) :
    XmlTree → Except String (Option XmlTree)
  | .elem tag a children =>
    if tag = SVG_TEXT_TAG then do
      let _ ← svg_text_node height (a :: ancestors) a
      let _ ← phaseAForest height [a] children
      Except.ok none
    else do
      let cs ← phaseAForest height (a :: ancestors) children
      Except.ok (some (.elem tag a cs))

/-- `phaseA` over a sibling list, keeping the surviving elements in order. -/
def phaseAForest (height : ℚ) (ancestors : List Attrib) :
    XmlForest → Except String XmlForest
  | .nil => Except.ok .nil
  | .cons t ts => do
    let o ← phaseA height ancestors t
    let rest ← phaseAForest height ancestors ts
    Except.ok (match o with | none => rest | some t2 => .cons t2 rest)

end

mutual

/-- The `//*[@textext:text]` pass over one subtree, in document order:
returns the picture nodes, the preamble-source paths (in first-seen order),
and the subtree after removals (`none` when this element itself was
removed). Matched descendants of a matched element are still processed —
inside the detached subtree — exactly as lxml's up-front xpath list plus
in-place removal behaves. -/
def phaseB (height : ℚ) (ancestors : List Attrib) :
    XmlTree → Except String (List TeXPictureElement × List String × Option XmlTree)
  | .elem tag a children =>
    if (a.lookup TT_TEXT).isSome then do
      let (node, path) ← textext_node height (a :: ancestors) a
      let (ns, ps, _) ← phaseBForest height [a] children
      Except.ok (node :: ns, path :: ps, none)
    else do
      let (ns, ps, cs) ← phaseBForest height (a :: ancestors) children
      Except.ok (ns, ps, some (.elem tag a cs))

/-- `phaseB` over a sibling list. -/
def phaseBForest (height : ℚ) (ancestors : List Attrib) :
    XmlForest → Except String (List TeXPictureElement × List String × XmlForest)
  | .nil => Except.ok ([], [], .nil)
  | .cons t ts => do
    let (ns1, ps1, o) ← phaseB height ancestors t
    let (ns2, ps2, rest) ← phaseBForest height ancestors ts
    Except.ok (ns1 ++ ns2, ps1 ++ ps2,
               match o with | none => rest | some t2 => .cons t2 rest)

end

/-- First-seen-order deduplication; models the `set()` of preamble paths
(source lines 288, 295, 308). Python's set iteration order is unspecified;
the spec flags it as a latent nondeterminism, and every property proved
here is order-independent. -/
def dedupPaths (l : List String) : List String :=
  l.foldl (fun acc p => if acc.elem p then acc else acc ++ [p]) []

/-- The preamble-reading loop (source lines 307-311): `open(path)` on a
missing file raises (`FileNotFoundError`), aborting everything; otherwise
the file's text is collected. The file system is modelled as a partial map
from paths to contents. -/
def readPreambles (fs : String → Option String) :
    List String → Except String (List String)
  | [] => Except.ok []
  | p :: ps =>
    match fs p with
    | none => Except.error ("FileNotFoundError: " ++ p)
    | some contents =>
      match readPreambles fs ps with
      | Except.error e => Except.error e
      | Except.ok rest => Except.ok (contents :: rest)

/-- `pic.width = svg_parse_length(svgroot.attrib['width'])` (source lines
265-266): a missing attribute raises `KeyError`, a present one is parsed
with unit scaling applied. -/
def parse_root_length (a : Attrib) (key : String) : Except String ℚ :=
  match a.lookup key with
  | some w => svg_parse_length w
  | none => Except.error ("KeyError: " ++ key)

/-- `extract_text_to_texpic(svgroot)` (source lines 263-317). Besides the
`TeXPicture` it returns the tree as the two removal passes leave it (the
Python function mutates `svgroot` in place). A root element that matches
one of the xpath queries has its node computed and then fails at
`el.getparent().remove(el)` (`getparent()` is `None` for the root). -/
def extract_text_to_texpic (fs : String → Option String) (svgroot : XmlTree) :
    Except String (TeXPicture × XmlTree) :=
  match svgroot with
  | .elem rtag rattrib rchildren => do
    let width ← parse_root_length rattrib "width"
    let height ← parse_root_length rattrib "height"
    let cs1 ←
      if rtag = SVG_TEXT_TAG then do
        let _ ← svg_text_node height [rattrib] rattrib
        Except.error "AttributeError: NoneType has no attribute remove"
      else phaseAForest height [rattrib] rchildren
    -- the tree after the first pass is `elem rtag rattrib cs1`
    let r2 ←
      if (rattrib.lookup TT_TEXT).isSome then do
        let _ ← textext_node height [rattrib] rattrib
        Except.error "AttributeError: NoneType has no attribute remove"
      else phaseBForest height [rattrib] cs1
    let (nodes, paths, cs2) := r2
    let contents ← readPreambles fs (dedupPaths paths)
    Except.ok ({ width := width, height := height, nodes := nodes,
                 extra_preamble := String.join contents },
               XmlTree.elem rtag rattrib cs2)

/-- The preamble-source paths `extract_text_to_texpic` collects, in the
deduplicated order `readPreambles` consumes them; the pipeline prefix is
identical to `extract_text_to_texpic`, which never touches the file system
before its `readPreambles` step. -/
def extract_paths (svgroot : XmlTree) : Except String (List String) :=
  match svgroot with
  | .elem rtag rattrib rchildren => do
    let _ ← parse_root_length rattrib "width"
    let height ← parse_root_length rattrib "height"
    let cs1 ←
      if rtag = SVG_TEXT_TAG then do
        let _ ← svg_text_node height [rattrib] rattrib
        Except.error "AttributeError: NoneType has no attribute remove"
      else phaseAForest height [rattrib] rchildren
    let r2 ←
      if (rattrib.lookup TT_TEXT).isSome then do
        let _ ← textext_node height [rattrib] rattrib
        Except.error "AttributeError: NoneType has no attribute remove"
      else phaseBForest height [rattrib] cs1
    let (_, paths, _) := r2
    Except.ok (dedupPaths paths)

/-! ## Helper predicates and concrete fixtures used by the theorems -/

/-- Did the computation return normally (no exception)? -/
def exceptIsOk {ε α : Type} : Except ε α → Bool
  | Except.ok _ => true
  | Except.error _ => false

/-- The transform contributed by one element of an ancestor chain: its
parsed `transform` attribute, or the identity when the attribute is absent. -/
def element_transform (a : Attrib) : Except String (AffineTransform ℚ) :=
  match a.lookup "transform" with
  | none => Except.ok AffineTransform.identity
  | some t => svg_parse_transform t

mutual

/-- Does the tree contain an element with the `svg:text` tag? -/
def hasSvgText : XmlTree → Bool
  | .elem tag _ children => tag == SVG_TEXT_TAG || hasSvgTextForest children

/-- `hasSvgText` over a sibling list. -/
def hasSvgTextForest : XmlForest → Bool
  | .nil => false
  | .cons t ts => hasSvgText t || hasSvgTextForest ts

end

/-- The ancestor chain of the spec's three-level example, target-first:
`root → A (translate(10,0)) → B (translate(0,5)) → target`. -/
def chainC3 : List Attrib :=
  [[], [("transform", "translate(0,5)")], [("transform", "translate(10,0)")], []]

/-- The document of the end-to-end example: root `width="100" height="50"`
with one annotated node at `translate(20,10)` and payload `"X"`. -/
def rootC4 : XmlTree :=
  .elem "\x7bhttp://www.w3.org/2000/svg\x7dsvg"
    [("width", "100"), ("height", "50")]
    (.cons (.elem "\x7bhttp://www.w3.org/2000/svg\x7dg"
      [("transform", "translate(20,10)"), (TT_TEXT, "X"), (TT_PREAMBLE, "preamble.tex")]
      .nil) .nil)

/-- A file system containing just the (empty) preamble file of `rootC4`. -/
def fsC4 : String → Option String :=
  fun p => if p = "preamble.tex" then some "" else none

/-- The picture node extracted from `rootC4`. -/
def nodeC4 : TeXPictureElement :=
  { tex_pos := (20, 40),
    texcode := TEXTEXT_WRAP_HEAD ++ "X" ++ TEXTEXT_WRAP_TAIL,
    xform := ⟨20, 10, 1, 0, 0, 1⟩, svg_pos := (0, 0) }

/-- The picture extracted from `rootC4`. -/
def picC4 : TeXPicture :=
  { width := 100, height := 50, nodes := [nodeC4], extra_preamble := "" }

/-- `rootC4` after extraction: the annotated node is removed. -/
def treeC4 : XmlTree :=
  .elem "\x7bhttp://www.w3.org/2000/svg\x7dsvg"
    [("width", "100"), ("height", "50")] .nil

/-- An empty file system. -/
def fsNone : String → Option String := fun _ => none

/-- A document whose only child is a plain `svg:text` element. -/
def rootC9 : XmlTree :=
  .elem "\x7bhttp://www.w3.org/2000/svg\x7dsvg"
    [("width", "100"), ("height", "50")]
    (.cons (.elem SVG_TEXT_TAG [("x", "3"), ("y", "4")] .nil) .nil)

/-- The picture extracted from `rootC9`: no nodes at all. -/
def picC9 : TeXPicture :=
  { width := 100, height := 50, nodes := [], extra_preamble := "" }

/-- `rootC9` after extraction: the `svg:text` element is removed. -/
def treeC9 : XmlTree :=
  .elem "\x7bhttp://www.w3.org/2000/svg\x7dsvg"
    [("width", "100"), ("height", "50")] .nil

/-- Like `rootC9` but with an unparsable `x` anchor on the `svg:text`
element: its position is still computed, so extraction fails. -/
def rootC9bad : XmlTree :=
  .elem "\x7bhttp://www.w3.org/2000/svg\x7dsvg"
    [("width", "100"), ("height", "50")]
    (.cons (.elem SVG_TEXT_TAG [("x", "bogus"), ("y", "4")] .nil) .nil)

/-- A document with one annotated node referencing the preamble file
`missing.tex`. -/
def rootC8 : XmlTree :=
  .elem "\x7bhttp://www.w3.org/2000/svg\x7dsvg"
    [("width", "100"), ("height", "50")]
    (.cons (.elem "\x7bhttp://www.w3.org/2000/svg\x7dg"
      [(TT_TEXT, "X"), (TT_PREAMBLE, "missing.tex")] .nil) .nil)

/-! ## General lemmas -/

theorem AffineTransform.mul_def {α : Type} [CommRing α] (a b : AffineTransform α) :
    a * b = a.mul b := rfl

theorem ok_bind {ε α β : Type} (a : α) (f : α → Except ε β) :
    (Except.ok a >>= f : Except ε β) = f a := rfl

theorem bind_eq_ok {ε α β : Type} {x : Except ε α} {f : α → Except ε β} {b : β} :
    (x >>= f) = Except.ok b ↔ ∃ a, x = Except.ok a ∧ f a = Except.ok b := by
  cases x <;> simp [Bind.bind, Except.bind]

theorem AffineTransform.identity_mul {α : Type} [CommRing α] (a : AffineTransform α) :
    (AffineTransform.identity : AffineTransform α) * a = a := by
  cases a
  simp only [AffineTransform.mul_def, AffineTransform.mul, AffineTransform.identity,
    AffineTransform.mk.injEq]
  refine ⟨by ring, by ring, by ring, by ring, by ring, by ring⟩

/-- The loop of `svg_find_accumulated_transform`, characterized as a fold:
when every chain element's transform attribute parses (absent attributes
contributing the identity), the loop left-multiplies each element's
transform onto the accumulator in target-to-root order, so the element
nearest the root ends up leftmost in the product. -/
theorem svg_find_accumulated_transform_loop_eq (chain : List Attrib) :
    ∀ (ts : List (AffineTransform ℚ)), chain.mapM element_transform = Except.ok ts →
      ∀ acc, svg_find_accumulated_transform_loop acc chain =
        Except.ok (ts.foldl (fun x t => t * x) acc) := by
  induction chain with
  | nil =>
    intro ts h acc
    simp only [List.mapM_nil, pure, Except.pure, Except.ok.injEq] at h
    subst h
    rfl
  | cons a rest ih =>
    intro ts h acc
    rw [List.mapM_cons, bind_eq_ok] at h
    obtain ⟨t, hta, h2⟩ := h
    rw [bind_eq_ok] at h2
    obtain ⟨ts2, hts2, h3⟩ := h2
    simp only [pure, Except.pure, Except.ok.injEq] at h3
    subst h3
    simp only [svg_find_accumulated_transform_loop]
    unfold element_transform at hta
    cases hl : a.lookup "transform" with
    | none =>
      rw [hl] at hta
      have hid : AffineTransform.identity = t := Except.ok.inj hta
      rw [List.foldl_cons, ← hid, AffineTransform.identity_mul]
      exact ih ts2 hts2 acc
    | some s =>
      rw [hl] at hta
      have hta2 : svg_parse_transform s = Except.ok t := hta
      show (match svg_parse_transform s with
        | Except.error e => Except.error e
        | Except.ok t2 => svg_find_accumulated_transform_loop (t2 * acc) rest) =
        Except.ok (List.foldl (fun x t2 => t2 * x) acc (t :: ts2))
      rw [hta2, List.foldl_cons]
      exact ih ts2 hts2 (t * acc)

/-- The loop returns the accumulator untouched over a chain with no
transform attributes. -/
theorem svg_find_accumulated_transform_loop_id (chain : List Attrib)
    (h : ∀ a ∈ chain, a.lookup "transform" = none) :
    ∀ acc, svg_find_accumulated_transform_loop acc chain = Except.ok acc := by
  induction chain with
  | nil => intro acc; rfl
  | cons a rest ih =>
    intro acc
    simp only [svg_find_accumulated_transform_loop]
    rw [h a (List.mem_cons_self a rest)]
    exact ih (fun b hb => h b (List.mem_cons_of_mem a hb)) acc

/-! ## The claims -/

/-- C1: the spec claims `parse_length(f"{v}{u}") == v * scale[u]` for every
unit `u` in the table, and `parse_length(str(v)) == v` without a unit. The
code's unit branch (source line 193) returns the bare table entry
`UNIT_SCALE_TO_USER_UNITS[unit]` and drops `raw_value`: `parse_length("2in")`
evaluates to `90` — the table entry for `in` — not to `2 * 90 = 180`. The
unitless branch does return the raw value. -/
theorem C1_parse_length_returns_bare_scale :
    svg_parse_length "2in" = Except.ok 90 ∧
    UNIT_SCALE_TO_USER_UNITS.lookup "in" = some 90 ∧
    (90 : ℚ) ≠ 2 * 90 ∧
    svg_parse_length "2" = Except.ok 2 := by
  refine ⟨by decide, by decide, by decide, by decide⟩

/-- C2: for every pair of affine transforms `A`, `B` and every point `p`,
`(A * B).applyTo p = A.applyTo (B.applyTo p)`: composition applies `B`'s
mapping first, then `A`'s. -/
theorem C2_compose_applies_b_then_a (A B : AffineTransform ℚ) (p : ℚ × ℚ) :
    (A * B).applyTo p = A.applyTo (B.applyTo p) := by
  cases A; cases B; cases p
  simp only [AffineTransform.mul_def, AffineTransform.mul, AffineTransform.applyTo,
    Prod.mk.injEq]
  exact ⟨by ring, by ring⟩

/-- C3: `svg_find_accumulated_transform` composes the transform attributes
of the node and its ancestors so that the transform nearest the root is the
leftmost factor — applied first in chain order — and ancestors without a
transform attribute contribute the identity. On the chain
root → A(translate(10,0)) → B(translate(0,5)) → target the result equals
`translate(10,0) * translate(0,5)` and projects the origin to `(10, 5)`;
a chain with no transform attributes yields the identity whatever its
length. -/
theorem C3_accumulated_transform_root_first :
    (∀ (chain : List Attrib) (ts : List (AffineTransform ℚ)),
       chain.mapM element_transform = Except.ok ts →
       svg_find_accumulated_transform chain =
         Except.ok (ts.foldl (fun x t => t * x) AffineTransform.identity)) ∧
    (∀ chain : List Attrib, (∀ a ∈ chain, a.lookup "transform" = none) →
       svg_find_accumulated_transform chain = Except.ok AffineTransform.identity) ∧
    svg_find_accumulated_transform chainC3 =
      Except.ok (AffineTransform.identity.translate 10 0 *
        AffineTransform.identity.translate 0 5) ∧
    (svg_find_accumulated_transform chainC3).map (fun t => t.applyTo (0, 0)) =
      Except.ok ((10 : ℚ), (5 : ℚ)) := by
  refine ⟨?_, ?_, by decide, by decide⟩
  · intro chain ts h
    exact svg_find_accumulated_transform_loop_eq chain ts h AffineTransform.identity
  · intro chain h
    exact svg_find_accumulated_transform_loop_id chain h AffineTransform.identity

/-- Witness for C3: the fold law at a two-element chain, and the
identity law at a three-element chain without transforms. -/
theorem C3_witness :
    svg_find_accumulated_transform [[("transform", "translate(2,3)")], []] =
      Except.ok (([AffineTransform.identity.translate 2 3,
        AffineTransform.identity] : List (AffineTransform ℚ)).foldl
          (fun x t => t * x) AffineTransform.identity) ∧
    svg_find_accumulated_transform [[("a", "b")], [], []] =
      Except.ok AffineTransform.identity :=
  ⟨C3_accumulated_transform_root_first.1 _ _ (by decide),
   C3_accumulated_transform_root_first.2.1 _ (by decide)⟩

/-- C7: `rotate_degrees(90)` maps `(1,0)` to `(0,1)` (exactly, in the real
model of float arithmetic); `rotate_degrees(90, cx=1, cy=0)` fixes `(1,0)`;
and for every angle and pivot, rotation about `(cx,cy)` acts on points as
translate(cx,cy) ∘ rotate(angle) ∘ translate(-cx,-cy). -/
theorem C7_rotate_degrees_pivot :
    (AffineTransform.identity.rotate_degrees 90 0 0).applyTo (1, 0) = ((0 : ℝ), 1) ∧
    (AffineTransform.identity.rotate_degrees 90 1 0).applyTo (1, 0) = ((1 : ℝ), 0) ∧
    ∀ (angle cx cy : ℝ) (p : ℝ × ℝ),
      (AffineTransform.identity.rotate_degrees angle cx cy).applyTo p =
        (AffineTransform.identity.translate cx cy).applyTo
          ((AffineTransform.identity.rotate_degrees angle 0 0).applyTo
            ((AffineTransform.identity.translate (-cx) (-cy)).applyTo p)) := by
  have hrad : AffineTransform.radians 90 = Real.pi / 2 := by
    unfold AffineTransform.radians; ring
  refine ⟨?_, ?_, ?_⟩
  · rw [AffineTransform.rotate_degrees, if_neg (by simp), hrad]
    simp only [AffineTransform.matrix, AffineTransform.identity, AffineTransform.applyTo,
      Real.cos_pi_div_two, Real.sin_pi_div_two, Prod.mk.injEq]
    constructor <;> ring
  · rw [AffineTransform.rotate_degrees, if_pos (Or.inl one_ne_zero)]
    simp only [AffineTransform.matrix, AffineTransform.identity, AffineTransform.translate,
      AffineTransform.applyTo, Prod.mk.injEq]
    constructor <;> ring
  · intro angle cx cy p
    by_cases h : cx ≠ 0 ∨ cy ≠ 0
    · simp only [AffineTransform.rotate_degrees]
      rw [if_pos h, if_neg (show ¬((0 : ℝ) ≠ 0 ∨ (0 : ℝ) ≠ 0) by simp)]
      simp only [AffineTransform.matrix, AffineTransform.identity, AffineTransform.translate,
        AffineTransform.applyTo, Prod.mk.injEq]
      constructor <;> ring
    · push_neg at h
      obtain ⟨hx, hy⟩ := h
      subst hx; subst hy
      simp only [AffineTransform.rotate_degrees]
      rw [if_neg (show ¬((0 : ℝ) ≠ 0 ∨ (0 : ℝ) ≠ 0) by simp)]
      simp only [AffineTransform.matrix, AffineTransform.identity, AffineTransform.translate,
        AffineTransform.applyTo, Prod.mk.injEq]
      constructor <;> ring

/-- The state-passing loop agrees with the pure loop and returns the chain
unchanged. -/
theorem svg_find_accumulated_transform_loop_st_spec (chain : List Attrib) :
    ∀ x, svg_find_accumulated_transform_loop_st x chain =
      (svg_find_accumulated_transform_loop x chain, chain) := by
  induction chain with
  | nil => intro x; rfl
  | cons a rest ih =>
    intro x
    simp only [svg_find_accumulated_transform_loop_st, svg_find_accumulated_transform_loop]
    cases a.lookup "transform" with
    | none =>
      dsimp only
      rw [ih x]
    | some tstr =>
      dsimp only
      cases svg_parse_transform tstr with
      | error e => rfl
      | ok t =>
        dsimp only
        rw [ih (t * x)]

/-- C10: resolving an accumulated transform is read-only — the state-passing
translation of `svg_find_accumulated_transform` returns the visited chain of
attribute dictionaries exactly as it found it (no attribute modified, no
element added, removed or moved) while computing the same answer as the pure
function — and the functional composition `__mul__` returns both of its
operand objects unchanged alongside the fresh product. -/
theorem C10_resolver_read_only :
    (∀ chain : List Attrib, (svg_find_accumulated_transform_st chain).2 = chain) ∧
    (∀ chain : List Attrib, (svg_find_accumulated_transform_st chain).1 =
       svg_find_accumulated_transform chain) ∧
    ∀ a b : AffineTransform ℚ,
      (AffineTransform.mul_st a b).2.1 = a ∧
      (AffineTransform.mul_st a b).2.2 = b ∧
      (AffineTransform.mul_st a b).1 = a * b := by
  refine ⟨?_, ?_, ?_⟩
  · intro chain
    unfold svg_find_accumulated_transform_st
    rw [svg_find_accumulated_transform_loop_st_spec chain AffineTransform.identity]
  · intro chain
    unfold svg_find_accumulated_transform_st svg_find_accumulated_transform
    rw [svg_find_accumulated_transform_loop_st_spec chain AffineTransform.identity]
  · intro a b
    exact ⟨rfl, rfl, rfl⟩

/-- C5: `svg_parse_transform` fails on every input the transform regex does
not match (which includes every multi-function transform list), on every
matched input whose function name is not `matrix`/`translate`/`scale`
(`rotate`, `skewX`, `skewY`, …), and on every recognized function with a
wrong argument count (`matrix` with other than 6, `translate`/`scale` with
0 or more than 2); `translate` with one argument parses as
`translate(tx, 0)` and `scale` with one argument as a uniform scale. -/
theorem C5_transform_parser_errors :
    (∀ s, rxTransformMatch s = none → exceptIsOk (svg_parse_transform s) = false) ∧
    (∀ s f a, rxTransformMatch s = some (f, a) →
       ¬(f = "matrix" ∨ f = "translate" ∨ f = "scale") →
       exceptIsOk (svg_parse_transform s) = false) ∧
    (∀ s a args, rxTransformMatch s = some ("matrix", a) →
       (splitArgs a).mapM pyFloat = some args → args.length ≠ 6 →
       exceptIsOk (svg_parse_transform s) = false) ∧
    (∀ s a args, rxTransformMatch s = some ("translate", a) →
       (splitArgs a).mapM pyFloat = some args → args.length < 1 ∨ args.length > 2 →
       exceptIsOk (svg_parse_transform s) = false) ∧
    (∀ s a args, rxTransformMatch s = some ("scale", a) →
       (splitArgs a).mapM pyFloat = some args → args.length < 1 ∨ args.length > 2 →
       exceptIsOk (svg_parse_transform s) = false) ∧
    exceptIsOk (svg_parse_transform "rotate(10)") = false ∧
    exceptIsOk (svg_parse_transform "skewX(10)") = false ∧
    exceptIsOk (svg_parse_transform "translate(10,0) scale(2)") = false ∧
    svg_parse_transform "translate(5)" = svg_parse_transform "translate(5,0)" ∧
    svg_parse_transform "scale(3)" = svg_parse_transform "scale(3,3)" := by
  refine ⟨?_, ?_, ?_, ?_, ?_, by decide, by decide, by decide, by decide, by decide⟩
  · intro s h
    unfold svg_parse_transform
    rw [h]
    rfl
  · intro s f a h hf
    push_neg at hf
    obtain ⟨h1, h2, h3⟩ := hf
    unfold svg_parse_transform
    rw [h]
    dsimp only
    cases hm : (splitArgs a).mapM pyFloat with
    | none => rfl
    | some args =>
      dsimp only
      rw [if_neg h1, if_neg h2, if_neg h3]
      rfl
  · intro s a args h hm hlen
    unfold svg_parse_transform
    rw [h]
    dsimp only
    rw [hm]
    dsimp only
    rw [if_pos rfl, if_pos hlen]
    rfl
  · intro s a args h hm hlen
    unfold svg_parse_transform
    rw [h]
    dsimp only
    rw [hm]
    dsimp only
    rw [if_neg (by decide), if_pos rfl, if_pos hlen]
    rfl
  · intro s a args h hm hlen
    unfold svg_parse_transform
    rw [h]
    dsimp only
    rw [hm]
    dsimp only
    rw [if_neg (by decide), if_neg (by decide), if_pos rfl, if_pos hlen]
    rfl

/-- Witness for C5: each failure law applied at a concrete input. -/
theorem C5_witness :
    exceptIsOk (svg_parse_transform "@@") = false ∧
    exceptIsOk (svg_parse_transform "rotate(45)") = false ∧
    exceptIsOk (svg_parse_transform "matrix(1,2,3,4,5)") = false ∧
    exceptIsOk (svg_parse_transform "translate()") = false ∧
    exceptIsOk (svg_parse_transform "scale(1,2,3)") = false :=
  ⟨C5_transform_parser_errors.1 "@@" (by decide),
   C5_transform_parser_errors.2.1 "rotate(45)" "rotate" "45" (by decide) (by decide),
   C5_transform_parser_errors.2.2.1 "matrix(1,2,3,4,5)" "1,2,3,4,5"
     [1, 2, 3, 4, 5] (by decide) (by decide) (by decide),
   C5_transform_parser_errors.2.2.2.1 "translate()" "" [] (by decide) (by decide)
     (by decide),
   C5_transform_parser_errors.2.2.2.2.1 "scale(1,2,3)" "1,2,3" [1, 2, 3]
     (by decide) (by decide) (by decide)⟩

/-- C6 counterexample: the claim says every string not in the exact
`#RRGGBB` hex form fails with a parse error, but `svg_parse_color` never
examines characters past index 7: the nine-character string `"#ff0080ZZ"`
is accepted and returns `(255, 0, 128)`. -/
theorem C6_counterexample :
    svg_parse_color "#ff0080ZZ" = Except.ok (255, 0, 128) ∧
    "#ff0080ZZ".length ≠ 7 := by
  refine ⟨by decide, by decide⟩

/-- C6 amended: `parse_color("#ff0080")` returns `(255, 0, 128)`; a string
whose first character is not `#` (or the empty string) fails; and the
parser depends only on the first seven characters, so a string whose first
seven characters form `#RRGGBB` is accepted with any trailing characters
ignored. -/
theorem C6_color_parser_amended :
    svg_parse_color "#ff0080" = Except.ok (255, 0, 128) ∧
    (∀ s : String, svg_parse_color s = svg_parse_color (String.mk (s.toList.take 7))) ∧
    (∀ s : String, s.toList.head?.all (fun c => c ≠ '#') = true →
       exceptIsOk (svg_parse_color s) = false) := by
  refine ⟨by decide, ?_, ?_⟩
  · intro s
    unfold svg_parse_color
    cases hl : s.toList with
    | nil => rfl
    | cons c rest =>
      show (if c = '#' then _ else _) =
        (match (String.mk ((c :: rest).take 7)).toList with
          | [] => Except.error "IndexError: string index out of range"
          | c :: _ => _)
      have hmk : (String.mk ((c :: rest).take 7)).toList = c :: rest.take 6 := rfl
      rw [hmk]
      dsimp only
      by_cases hc : c = '#'
      · rw [if_pos hc, if_pos hc]
        simp [List.take_take, List.drop_take]
      · rw [if_neg hc, if_neg hc]
  · intro s h
    unfold svg_parse_color
    cases hl : s.toList with
    | nil => rfl
    | cons c rest =>
      rw [hl] at h
      simp only [Option.all_some, List.head?_cons] at h
      dsimp only
      rw [if_neg (by simpa using h)]
      rfl

/-- Witness for C6: trailing-character indifference at a concrete input,
and failure of a non-hash color name. -/
theorem C6_witness :
    svg_parse_color "#ff0080abc" =
      svg_parse_color (String.mk ("#ff0080abc".toList.take 7)) ∧
    exceptIsOk (svg_parse_color "red") = false :=
  ⟨C6_color_parser_amended.2.1 "#ff0080abc",
   C6_color_parser_amended.2.2 "red" (by decide)⟩

/-- A node built by `textext_node` is positioned at the translation
component of its accumulated transform, Y-flipped against the height. -/
theorem textext_node_tex_pos (height : ℚ) (chain : List Attrib) (a : Attrib)
    (node : TeXPictureElement) (path : String)
    (h : textext_node height chain a = Except.ok (node, path)) :
    node.tex_pos = (node.xform.tx, height - node.xform.ty) := by
  unfold textext_node at h
  rw [bind_eq_ok] at h
  obtain ⟨tt, htt, h⟩ := h
  cases hlp : a.lookup TT_PREAMBLE with
  | none =>
    rw [hlp] at h
    simp [Bind.bind, Except.bind] at h
  | some p =>
    rw [hlp] at h
    rw [bind_eq_ok] at h
    obtain ⟨psrc, hpsrc, h⟩ := h
    dsimp only at h
    rw [bind_eq_ok] at h
    obtain ⟨xf, hxf, h⟩ := h
    have h2 := Except.ok.inj h
    simp only [Prod.mk.injEq] at h2
    obtain ⟨hn, hp⟩ := h2
    rw [← hn]

mutual

theorem phaseB_tex_pos : ∀ (height : ℚ) (anc : List Attrib) (t : XmlTree)
    (ns : List TeXPictureElement) (ps : List String) (o : Option XmlTree),
    phaseB height anc t = Except.ok (ns, ps, o) →
    ∀ n ∈ ns, n.tex_pos = (n.xform.tx, height - n.xform.ty)
  | height, anc, .elem tag a children, ns, ps, o, h => by
    simp only [phaseB] at h
    by_cases hb : (a.lookup TT_TEXT).isSome
    · rw [if_pos hb] at h
      rw [bind_eq_ok] at h
      obtain ⟨⟨node, path⟩, hnp, h⟩ := h
      dsimp only at h
      rw [bind_eq_ok] at h
      obtain ⟨⟨ns1, ps1, f1⟩, hrec, h⟩ := h
      dsimp only at h
      have h2 := Except.ok.inj h
      simp only [Prod.mk.injEq] at h2
      obtain ⟨hns, hps, ho⟩ := h2
      rw [← hns]
      intro n hn
      rcases List.mem_cons.mp hn with h3 | h3
      · rw [h3]
        exact textext_node_tex_pos height (a :: anc) a node path hnp
      · exact phaseBForest_tex_pos height [a] children ns1 ps1 f1 hrec n h3
    · rw [if_neg hb] at h
      rw [bind_eq_ok] at h
      obtain ⟨⟨ns1, ps1, f1⟩, hrec, h⟩ := h
      dsimp only at h
      have h2 := Except.ok.inj h
      simp only [Prod.mk.injEq] at h2
      obtain ⟨hns, hps, ho⟩ := h2
      rw [← hns]
      exact phaseBForest_tex_pos height (a :: anc) children ns1 ps1 f1 hrec

theorem phaseBForest_tex_pos : ∀ (height : ℚ) (anc : List Attrib) (f : XmlForest)
    (ns : List TeXPictureElement) (ps : List String) (f2 : XmlForest),
    phaseBForest height anc f = Except.ok (ns, ps, f2) →
    ∀ n ∈ ns, n.tex_pos = (n.xform.tx, height - n.xform.ty)
  | height, anc, .nil, ns, ps, f2, h => by
    simp only [phaseBForest] at h
    have h2 := Except.ok.inj h
    simp only [Prod.mk.injEq] at h2
    obtain ⟨hns, hps, ho⟩ := h2
    rw [← hns]
    intro n hn
    cases hn
  | height, anc, .cons t ts, ns, ps, f2, h => by
    simp only [phaseBForest] at h
    rw [bind_eq_ok] at h
    obtain ⟨⟨ns1, ps1, o1⟩, h1, h⟩ := h
    dsimp only at h
    rw [bind_eq_ok] at h
    obtain ⟨⟨ns2, ps2, rest⟩, hr, h⟩ := h
    dsimp only at h
    have h2 := Except.ok.inj h
    simp only [Prod.mk.injEq] at h2
    obtain ⟨hns, hps, ho⟩ := h2
    rw [← hns]
    intro n hn
    rcases List.mem_append.mp hn with h3 | h3
    · exact phaseB_tex_pos height anc t ns1 ps1 o1 h1 n h3
    · exact phaseBForest_tex_pos height anc ts ns2 ps2 rest hr n h3

end

/-- Anatomy of a successful extraction: the intermediate results of each
pipeline stage, and how the returned picture and tree are assembled from
them. -/
theorem extract_ok_parts (fs : String → Option String) (root : XmlTree)
    (pic : TeXPicture) (tree2 : XmlTree)
    (h : extract_text_to_texpic fs root = Except.ok (pic, tree2)) :
    ∃ (w hg : ℚ) (cs1 : XmlForest) (ns : List TeXPictureElement)
      (ps : List String) (cs2 : XmlForest) (contents : List String),
      parse_root_length root.attrib "width" = Except.ok w ∧
      parse_root_length root.attrib "height" = Except.ok hg ∧
      root.tag ≠ SVG_TEXT_TAG ∧
      phaseAForest hg [root.attrib] root.children = Except.ok cs1 ∧
      (root.attrib.lookup TT_TEXT).isSome = false ∧
      phaseBForest hg [root.attrib] cs1 = Except.ok (ns, ps, cs2) ∧
      readPreambles fs (dedupPaths ps) = Except.ok contents ∧
      pic = { width := w, height := hg, nodes := ns,
              extra_preamble := String.join contents } ∧
      tree2 = XmlTree.elem root.tag root.attrib cs2 := by
  obtain ⟨rtag, rattrib, rchildren⟩ := root
  simp only [XmlTree.attrib, XmlTree.tag, XmlTree.children]
  unfold extract_text_to_texpic at h
  rw [bind_eq_ok] at h
  obtain ⟨w, hw, h⟩ := h
  rw [bind_eq_ok] at h
  obtain ⟨hg, hh, h⟩ := h
  dsimp only at h
  by_cases hroot : rtag = SVG_TEXT_TAG
  · rw [if_pos hroot] at h
    rw [bind_eq_ok] at h
    obtain ⟨x, hx, h⟩ := h
    simp [Bind.bind, Except.bind] at h
  · rw [if_neg hroot] at h
    rw [bind_eq_ok] at h
    obtain ⟨cs1, hcs1, h⟩ := h
    cases hb : (rattrib.lookup TT_TEXT).isSome with
    | true =>
      rw [if_pos hb] at h
      rw [bind_eq_ok] at h
      obtain ⟨x, hx, h⟩ := h
      simp [Bind.bind, Except.bind] at h
    | false =>
      rw [if_neg (by simp [hb])] at h
      rw [bind_eq_ok] at h
      obtain ⟨⟨ns, ps, cs2⟩, hBF, h⟩ := h
      dsimp only at h
      rw [bind_eq_ok] at h
      obtain ⟨contents, hread, h⟩ := h
      have hfin := Except.ok.inj h
      simp only [Prod.mk.injEq] at hfin
      obtain ⟨hpic, htree⟩ := hfin
      exact ⟨w, hg, cs1, ns, ps, cs2, contents, hw, hh, hroot, hcs1, rfl, hBF,
        hread, hpic.symm, htree.symm⟩

/-- C4: every node the extraction produces is positioned at the translation
component `(tx, ty)` of its element's accumulated transform with the Y axis
flipped against the picture height — `tex_pos = (tx, height - ty)` — and,
end to end, a document with root `width="100" height="50"` and one
annotated node at `translate(20,10)` with payload `"X"` yields exactly one
`TeXPictureElement` positioned at `(20, 50 - 10) = (20, 40)`. -/
theorem C4_textext_node_position :
    (∀ fs root pic tree2, extract_text_to_texpic fs root = Except.ok (pic, tree2) →
       ∀ n ∈ pic.nodes, n.tex_pos = (n.xform.tx, pic.height - n.xform.ty)) ∧
    extract_text_to_texpic fsC4 rootC4 = Except.ok (picC4, treeC4) ∧
    picC4.nodes.map (fun n => n.tex_pos) = [((20 : ℚ), (40 : ℚ))] := by
  refine ⟨?_, by decide, by decide⟩
  intro fs root pic tree2 h
  obtain ⟨w, hg, cs1, ns, ps, cs2, contents, hw, hh, hroot, hA, hb, hB, hread,
    hpic, htree⟩ := extract_ok_parts fs root pic tree2 h
  subst hpic
  exact phaseBForest_tex_pos hg [root.attrib] cs1 ns ps cs2 hB

/-- Witness for C4: the position law instantiated on the end-to-end
document. -/
theorem C4_witness :
    nodeC4.tex_pos = (nodeC4.xform.tx, picC4.height - nodeC4.xform.ty) :=
  C4_textext_node_position.1 fsC4 rootC4 picC4 treeC4 (by decide) nodeC4 (by decide)

/-- Anatomy of a successful path collection: `extract_paths` runs the same
pipeline prefix as `extract_text_to_texpic` and returns the deduplicated
preamble paths of the textext pass. -/
theorem extract_paths_ok_parts (root : XmlTree) (out : List String)
    (h : extract_paths root = Except.ok out) :
    ∃ (w hg : ℚ) (cs1 : XmlForest) (ns : List TeXPictureElement)
      (ps : List String) (cs2 : XmlForest),
      parse_root_length root.attrib "width" = Except.ok w ∧
      parse_root_length root.attrib "height" = Except.ok hg ∧
      root.tag ≠ SVG_TEXT_TAG ∧
      phaseAForest hg [root.attrib] root.children = Except.ok cs1 ∧
      (root.attrib.lookup TT_TEXT).isSome = false ∧
      phaseBForest hg [root.attrib] cs1 = Except.ok (ns, ps, cs2) ∧
      out = dedupPaths ps := by
  obtain ⟨rtag, rattrib, rchildren⟩ := root
  simp only [XmlTree.attrib, XmlTree.tag, XmlTree.children]
  unfold extract_paths at h
  rw [bind_eq_ok] at h
  obtain ⟨w, hw, h⟩ := h
  rw [bind_eq_ok] at h
  obtain ⟨hg, hh, h⟩ := h
  dsimp only at h
  by_cases hroot : rtag = SVG_TEXT_TAG
  · rw [if_pos hroot] at h
    rw [bind_eq_ok] at h
    obtain ⟨x, hx, h⟩ := h
    simp [Bind.bind, Except.bind] at h
  · rw [if_neg hroot] at h
    rw [bind_eq_ok] at h
    obtain ⟨cs1, hcs1, h⟩ := h
    cases hb : (rattrib.lookup TT_TEXT).isSome with
    | true =>
      rw [if_pos hb] at h
      rw [bind_eq_ok] at h
      obtain ⟨x, hx, h⟩ := h
      simp [Bind.bind, Except.bind] at h
    | false =>
      rw [if_neg (by simp [hb])] at h
      rw [bind_eq_ok] at h
      obtain ⟨⟨ns, ps, cs2⟩, hBF, h⟩ := h
      dsimp only at h
      have hout := Except.ok.inj h
      exact ⟨w, hg, cs1, ns, ps, cs2, hw, hh, hroot, hcs1, rfl, hBF, hout.symm⟩

/-- A read loop over a list containing an unreadable path fails. -/
theorem readPreambles_none (fs : String → Option String) :
    ∀ (l : List String) (p : String), p ∈ l → fs p = none →
      exceptIsOk (readPreambles fs l) = false := by
  intro l
  induction l with
  | nil =>
    intro p hp
    cases hp
  | cons q rest ih =>
    intro p hp hn
    simp only [readPreambles]
    rcases List.mem_cons.mp hp with h1 | h1
    · subst h1
      rw [hn]
      rfl
    · cases hq : fs q with
      | none => rfl
      | some c =>
        have h2 := ih p h1 hn
        cases hr : readPreambles fs rest with
        | error e => rfl
        | ok cs =>
          rw [hr] at h2
          simp [exceptIsOk] at h2

/-- C8: if any preamble-source path collected during extraction does not
name a readable file, the whole extraction fails with an error: since the
result is an `Except`, no picture — partial or otherwise — is returned in
that case. -/
theorem C8_missing_preamble_aborts (fs : String → Option String)
    (root : XmlTree) (ps : List String) (p : String)
    (hps : extract_paths root = Except.ok ps) (hmem : p ∈ ps)
    (hnone : fs p = none) :
    exceptIsOk (extract_text_to_texpic fs root) = false := by
  cases hx : extract_text_to_texpic fs root with
  | error e => rfl
  | ok out =>
    obtain ⟨pic, tree2⟩ := out
    obtain ⟨w, hg, cs1, ns, ps2, cs2, contents, hw, hh, hroot, hA, hb, hB, hread,
      hpic, htree⟩ := extract_ok_parts fs root pic tree2 hx
    obtain ⟨w2, hg2, cs1b, nsb, ps3, cs2b, hw2, hh2, hroot2, hA2, hb2, hB2, hout⟩ :=
      extract_paths_ok_parts root ps hps
    rw [hh] at hh2
    cases Except.ok.inj hh2
    rw [hA] at hA2
    cases Except.ok.inj hA2
    rw [hB] at hB2
    have htrip := Except.ok.inj hB2
    simp only [Prod.mk.injEq] at htrip
    obtain ⟨hns, hps3, hcs⟩ := htrip
    rw [← hps3] at hout
    rw [← hout] at hread
    have hfail := readPreambles_none fs ps p hmem hnone
    rw [hread] at hfail
    simp [exceptIsOk] at hfail

/-- Witness for C8: the concrete document referencing `missing.tex`,
extracted against an empty file system. -/
theorem C8_witness :
    exceptIsOk (extract_text_to_texpic fsNone rootC8) = false :=
  C8_missing_preamble_aborts fsNone rootC8 ["missing.tex"] "missing.tex"
    (by decide) (by decide) rfl

mutual

theorem phaseA_no_svgtext : ∀ (height : ℚ) (anc : List Attrib) (t : XmlTree)
    (t2 : XmlTree), phaseA height anc t = Except.ok (some t2) →
    hasSvgText t2 = false
  | height, anc, .elem tag a children, t2, h => by
    simp only [phaseA] at h
    by_cases ht : tag = SVG_TEXT_TAG
    · rw [if_pos ht] at h
      rw [bind_eq_ok] at h
      obtain ⟨x, hx, h⟩ := h
      rw [bind_eq_ok] at h
      obtain ⟨y, hy, h⟩ := h
      exact absurd (Except.ok.inj h) (by simp)
    · rw [if_neg ht] at h
      rw [bind_eq_ok] at h
      obtain ⟨cs, hcs, h⟩ := h
      have h2 := Option.some.inj (Except.ok.inj h)
      rw [← h2]
      simp only [hasSvgText, Bool.or_eq_false_iff]
      exact ⟨by simpa using ht, phaseAForest_no_svgtext height (a :: anc) children cs hcs⟩

theorem phaseAForest_no_svgtext : ∀ (height : ℚ) (anc : List Attrib)
    (f : XmlForest) (f2 : XmlForest), phaseAForest height anc f = Except.ok f2 →
    hasSvgTextForest f2 = false
  | height, anc, .nil, f2, h => by
    have h2 := Except.ok.inj h
    rw [← h2]
    rfl
  | height, anc, .cons t ts, f2, h => by
    simp only [phaseAForest] at h
    rw [bind_eq_ok] at h
    obtain ⟨o, ho, h⟩ := h
    rw [bind_eq_ok] at h
    obtain ⟨rest, hrest, h⟩ := h
    have h2 := Except.ok.inj h
    rw [← h2]
    cases o with
    | none =>
      exact phaseAForest_no_svgtext height anc ts rest hrest
    | some t2 =>
      simp only [hasSvgTextForest, Bool.or_eq_false_iff]
      exact ⟨phaseA_no_svgtext height anc t t2 ho,
        phaseAForest_no_svgtext height anc ts rest hrest⟩

end

mutual

theorem phaseB_no_svgtext : ∀ (height : ℚ) (anc : List Attrib) (t : XmlTree)
    (ns : List TeXPictureElement) (ps : List String) (t2 : XmlTree),
    hasSvgText t = false →
    phaseB height anc t = Except.ok (ns, ps, some t2) → hasSvgText t2 = false
  | height, anc, .elem tag a children, ns, ps, t2, hin, h => by
    simp only [phaseB] at h
    by_cases hb : (a.lookup TT_TEXT).isSome
    · rw [if_pos hb] at h
      rw [bind_eq_ok] at h
      obtain ⟨⟨node, path⟩, hnp, h⟩ := h
      dsimp only at h
      rw [bind_eq_ok] at h
      obtain ⟨⟨ns1, ps1, f1⟩, hrec, h⟩ := h
      dsimp only at h
      have h2 := Except.ok.inj h
      simp only [Prod.mk.injEq] at h2
      exact absurd h2.2.2 (by simp)
    · rw [if_neg hb] at h
      rw [bind_eq_ok] at h
      obtain ⟨⟨ns1, ps1, f1⟩, hrec, h⟩ := h
      dsimp only at h
      have h2 := Except.ok.inj h
      simp only [Prod.mk.injEq] at h2
      obtain ⟨hns, hps, ho⟩ := h2
      have h3 := Option.some.inj ho
      rw [← h3]
      simp only [hasSvgText, Bool.or_eq_false_iff] at hin ⊢
      exact ⟨hin.1,
        phaseBForest_no_svgtext height (a :: anc) children ns1 ps1 f1 hin.2 hrec⟩

theorem phaseBForest_no_svgtext : ∀ (height : ℚ) (anc : List Attrib)
    (f : XmlForest) (ns : List TeXPictureElement) (ps : List String)
    (f2 : XmlForest), hasSvgTextForest f = false →
    phaseBForest height anc f = Except.ok (ns, ps, f2) →
    hasSvgTextForest f2 = false
  | height, anc, .nil, ns, ps, f2, hin, h => by
    have h2 := Except.ok.inj h
    simp only [Prod.mk.injEq] at h2
    rw [← h2.2.2]
    rfl
  | height, anc, .cons t ts, ns, ps, f2, hin, h => by
    simp only [phaseBForest] at h
    simp only [hasSvgTextForest, Bool.or_eq_false_iff] at hin
    rw [bind_eq_ok] at h
    obtain ⟨⟨ns1, ps1, o1⟩, h1, h⟩ := h
    dsimp only at h
    rw [bind_eq_ok] at h
    obtain ⟨⟨ns2, ps2, rest⟩, hr, h⟩ := h
    dsimp only at h
    have h2 := Except.ok.inj h
    simp only [Prod.mk.injEq] at h2
    obtain ⟨hns, hps, ho⟩ := h2
    rw [← ho]
    cases o1 with
    | none =>
      exact phaseBForest_no_svgtext height anc ts ns2 ps2 rest hin.2 hr
    | some t2 =>
      simp only [hasSvgTextForest, Bool.or_eq_false_iff]
      exact ⟨phaseB_no_svgtext height anc t ns1 ps1 t2 hin.1 h1,
        phaseBForest_no_svgtext height anc ts ns2 ps2 rest hin.2 hr⟩

end

/-- C9: extraction removes every plain `svg:text` element from the source
tree — whenever extraction succeeds, the returned tree contains no
`svg:text` element at all — and such elements contribute no node to the
picture: the concrete document `rootC9`, whose only child is an `svg:text`
element, extracts to an empty node list with the element removed. The
element's projected position is still computed on the way: the same
document with an unparsable `x` anchor makes the whole extraction fail. -/
theorem C9_svg_text_removed :
    (∀ fs root pic tree2, extract_text_to_texpic fs root = Except.ok (pic, tree2) →
       hasSvgText tree2 = false) ∧
    extract_text_to_texpic fsNone rootC9 = Except.ok (picC9, treeC9) ∧
    picC9.nodes = [] ∧
    exceptIsOk (extract_text_to_texpic fsNone rootC9bad) = false := by
  refine ⟨?_, by decide, by decide, by decide⟩
  intro fs root pic tree2 h
  obtain ⟨w, hg, cs1, ns, ps, cs2, contents, hw, hh, hroot, hA, hb, hB, hread,
    hpic, htree⟩ := extract_ok_parts fs root pic tree2 h
  subst htree
  have hcs1 := phaseAForest_no_svgtext hg [root.attrib] root.children cs1 hA
  have hcs2 := phaseBForest_no_svgtext hg [root.attrib] cs1 ns ps cs2 hcs1 hB
  simp only [hasSvgText, Bool.or_eq_false_iff]
  exact ⟨by simpa using hroot, hcs2⟩

/-- Witness for C9: the removal law instantiated on the concrete document. -/
theorem C9_witness : hasSvgText treeC9 = false :=
  C9_svg_text_removed.1 fsNone rootC9 picC9 treeC9 (by decide)
